import Mathlib

/-!
Shallow embedding of `bgwtools/epsilon/epsmat_modeler.py`.

The source is a numeric Python script built around a single class
`EpsmatModeler`.  Floating-point values are modelled as real numbers,
integer lattice data as integers.  The stateful, cursor-based epsmat
reader (`epsmat.read_qpt`, consumed exactly once per q-point in order)
is modelled as a list of per-point buffers that is consumed head-first:
each loop iteration removes exactly one buffer, whether the point is
kept or discarded.  Python `assert` failures are modelled as error
values returned together with the modeler state at the moment the
assertion fires (in Python the mutations performed before the failing
assert survive, since the exception aborts the run but `self` was
already mutated).
-/

open scoped Classical

noncomputable section

/-- A dense per-q-point matrix returned by the epsmat reader
(`buf = epsmat.read_qpt(in_place=False)`), indexed by local G indices. -/
abbrev Buf := ℤ → ℤ → ℂ

/-- An integer reciprocal-lattice vector (a column of `gvec_k`),
modelled as a triple of integers. -/
abbrev GVec := ℤ × ℤ × ℤ

/-- Per-q-point data of an epsmat source: the q-point `qpt[:,iq]` and the
1-based permutation row `isort_i[iq]` (global G index → local storage index). -/
structure EpsQPoint where
  qpt : Fin 3 → ℝ
  isort : List ℤ

/-- An epsmat data source: list of stored G-vectors (`gvec_k`, shared across
q-points), the q-point headers in file order, and the stream of per-point
dense matrices consumed by the sequential reader. -/
structure EpsmatFile where
  gvec_k : List GVec
  points : List EpsQPoint
  bufs : List Buf

/-- Source `np.arange(-Gz_max, Gz_max+1)` : the list `-Gz_max, …, Gz_max`. -/
def mkGzs (Gz_max : ℕ) : List ℤ :=
  (List.range (2 * Gz_max + 1)).map (fun i => (i : ℤ) - (Gz_max : ℤ))

/-- Source `np.linalg.cholesky(bdot).T` for a 3×3 matrix, written out in closed form
(the standard Cholesky recurrence for the lower factor `L`, transposed). -/
def choleskyT (A : Fin 3 → Fin 3 → ℝ) : Fin 3 → Fin 3 → ℝ :=
  let L00 := Real.sqrt (A 0 0)
  let L10 := A 1 0 / L00
  let L11 := Real.sqrt (A 1 1 - L10 ^ 2)
  let L20 := A 2 0 / L00
  let L21 := (A 2 1 - L20 * L10) / L11
  let L22 := Real.sqrt (A 2 2 - L20 ^ 2 - L21 ^ 2)
  fun i j => !![L00, 0, 0; L10, L11, 0; L20, L21, L22] j i

/-- The state of the Python object `EpsmatModeler`.  `qs`, `qlens`, `eps` are
the pending accumulation lists (before `commit_data`) and hold the committed
arrays afterwards, mirroring the attribute rebinding in the source.
`degree` and `tcks` are only set by `model`. -/
structure EpsmatModeler where
  bdot : Fin 3 → Fin 3 → ℝ
  Lz : ℝ
  M : Fin 3 → Fin 3 → ℝ
  Gz_max : ℕ
  Gzs : List ℤ
  avgcut_xy : ℝ
  qs : List (Fin 3 → ℝ)
  qlens : List ℝ
  eps : List (List ℝ)
  nq : ℕ
  degree : ℕ
  tcks : List (List ℝ × List ℝ × ℕ)

/-- Source `EpsmatModeler.__init__(wfn, Gz_max, avgcut_xy)`: stores `bdot`, sets
`Lz = wfn.alat * wfn.avec[2,2]`, `M = cholesky(bdot).T`, the index axis
`Gzs = arange(-Gz_max, Gz_max+1)` and empty pending lists. -/
def EpsmatModeler.init (bdot : Fin 3 → Fin 3 → ℝ) (alat : ℝ) (avec : Fin 3 → Fin 3 → ℝ)
    (Gz_max : ℕ) (avgcut_xy : ℝ) : EpsmatModeler where
  bdot := bdot
  Lz := alat * avec 2 2
  M := choleskyT bdot
  Gz_max := Gz_max
  Gzs := mkGzs Gz_max
  avgcut_xy := avgcut_xy
  qs := []
  qlens := []
  eps := []
  nq := 0
  degree := 0
  tcks := []

/-- Source `self.gvecs_want`: zero vectors except for the third coordinate, which
runs over `Gzs`. -/
def gvecs_want (m : EpsmatModeler) : List GVec :=
  m.Gzs.map (fun g => ((0 : ℤ), (0 : ℤ), g))

/-- Squared euclidean distance between two integer lattice vectors, as used
by the KD-tree nearest-neighbour query. -/
def sqdist (v w : GVec) : ℤ :=
  (v.1 - w.1) ^ 2 + (v.2.1 - w.2.1) ^ 2 + (v.2.2 - w.2.2) ^ 2

/-- The squared distance from `w` to its nearest neighbour among `l`
(`none` when `l` is empty): the quantity tested by
`assert(np.all(dists==0))` after `tree.query(self.gvecs_want.T)`. -/
def minSqDist (l : List GVec) (w : GVec) : Option ℤ :=
  (l.map (fun v => sqdist v w)).min?

/-- Source `qlen = np.sqrt(np.sum(np.dot(self.M, qq)**2))`. -/
def qlenOf (M : Fin 3 → Fin 3 → ℝ) (q : Fin 3 → ℝ) : ℝ :=
  Real.sqrt (∑ i, (∑ j, M i j * q j) ^ 2)

/-- Source `igs_local = epsmat.isort_i[iq][igs_glob] - 1` (1-based to 0-based). -/
def igsLocal (igs_glob : List ℕ) (isort : List ℤ) : List ℤ :=
  igs_glob.map (fun g => isort.getD g 0 - 1)

/-- Source `eps = buf[igs_local, igs_local]`: the diagonal entries of the per-point
buffer at the resolved local indices. -/
def extractEps (igs_glob : List ℕ) (isort : List ℤ) (buf : Buf) : List ℂ :=
  (igsLocal igs_glob isort).map (fun i => buf i i)

/-- The two `assert` failure modes of `add_epsmat` (spec taxonomy names). -/
inductive IngestError where
  | precondViolation : IngestError
  | numericalIntegrity : IngestError
deriving DecidableEq

/-- The `for iq in range(epsmat.nq)` loop body of `add_epsmat`, threading the
modeler state and the reader's buffer stream.  Skipped points
(`qlen > avgcut_xy`) still consume one buffer (`read_qpt(ignore=True)`).
For a retained point, `qq` and `qlen` are appended *before* the buffer is
read and the imaginary-part assert runs; a failing assert returns the state
mutated so far. -/
def add_epsmat_loop (igs_glob : List ℕ) :
    EpsmatModeler → List EpsQPoint → List Buf →
    EpsmatModeler × List Buf × Option IngestError
  | m, [], bufs => (m, bufs, none)
  | m, p :: ps, bufs =>
    let qlen := qlenOf m.M p.qpt
    if qlen > m.avgcut_xy then
      add_epsmat_loop igs_glob m ps bufs.tail
    else
      let m1 := { m with qs := m.qs ++ [p.qpt], qlens := m.qlens ++ [qlen] }
      let epsv := extractEps igs_glob p.isort (bufs.headD (fun _ _ => 0))
      if ∀ e ∈ epsv, |e.im| < 1e-15 then
        add_epsmat_loop igs_glob { m1 with eps := m1.eps ++ [epsv.map Complex.re] }
          ps bufs.tail
      else (m1, bufs.tail, some IngestError.numericalIntegrity)

/-- Source `EpsmatModeler.add_epsmat(epsmat)`: build the KD-tree over `gvec_k`,
query the wanted G-vectors, `assert(np.all(dists==0))`, resolve the global
indices and run the ingestion loop.  On the failed assert nothing has been
ingested and no buffer consumed. -/
def add_epsmat (m : EpsmatModeler) (e : EpsmatFile) :
    EpsmatModeler × List Buf × Option IngestError :=
  if (gvecs_want m).all (fun w => minSqDist e.gvec_k w == some 0) then
    let igs_glob := (gvecs_want m).map (fun w => e.gvec_k.findIdx (fun v => decide (v = w)))
    add_epsmat_loop igs_glob m e.points e.bufs
  else (m, e.bufs, some IngestError.precondViolation)

/-- Source `order = np.argsort(self.qlens)`: a permutation of `range n` listing the
indices of `qlens` in order of non-decreasing value. -/
def argsortQlens (qlens : List ℝ) : List ℕ :=
  (List.range qlens.length).mergeSort (fun i j => decide (qlens.getD i 0 ≤ qlens.getD j 0))

/-- Source `EpsmatModeler.commit_data()`: transpose `qs` and `eps` into array
orientation ((3 × nq) resp. (nG × nq)) and reorder all three arrays by the
magnitude-sorting permutation `order`.  `qs` is kept as a list of sample
vectors; `eps` becomes the list of its `nG` rows, each row listing one value
per sample (`np.array(self.eps).T[:,order]`). -/
def commit_data (m : EpsmatModeler) : EpsmatModeler :=
  let order := argsortQlens m.qlens
  { m with
    qs := order.map (fun i => m.qs.getD i (fun _ => 0))
    qlens := order.map (fun i => m.qlens.getD i 0)
    eps := (List.range m.Gzs.length).map
      (fun ig => order.map (fun i => (m.eps.getD i []).getD ig 0)) }

/-- Scalar path of `EpsmatModeler.get_vcoul(qlen, Gz, trunc)` (taken when
`Gz` is not an array): `G2 = Gz**2 * bdot[2,2]`, `cos_term = 1-2*(Gz%2)`,
`zc = Lz/2`, returning `8π/(qlen²+G2)` times, if truncated,
`(1 - exp(-qlen*zc)*cos_term)`. -/
def get_vcoul_scalar (m : EpsmatModeler) (qlen : ℝ) (Gz : ℤ) (trunc : Bool) : ℝ :=
  let G2 : ℝ := (Gz : ℝ) ^ 2 * m.bdot 2 2
  let cos_term : ℝ := ((1 - 2 * (Gz % 2) : ℤ) : ℝ)
  let zc : ℝ := m.Lz / 2
  if trunc then 8 * Real.pi / (qlen ^ 2 + G2) * (1 - Real.exp (-qlen * zc) * cos_term)
  else 8 * Real.pi / (qlen ^ 2 + G2)

/-- Array path of `EpsmatModeler.get_vcoul` (taken when `Gz` is an array):
the source rebinds `Gz = Gz[:,newaxis]` and, crucially, `qlen =
self.qlens[newaxis,:]` — the supplied `qlen` argument is discarded and the
stored magnitudes are broadcast instead, giving the (nG × nq) matrix of
elementwise kernel values. -/
def get_vcoul_array (m : EpsmatModeler) (qlen : List ℝ) (Gz : List ℤ) (trunc : Bool) :
    List (List ℝ) :=
  Gz.map (fun g => m.qlens.map (fun q => get_vcoul_scalar m q g trunc))

/-- The `ys` array of `EpsmatModeler.model`: raw `eps` for kind 0, the
susceptibility `chi = (eps-1)/vT` for kind 1, and for any other kind `chi`
with the even-`Gz` rows divided elementwise by `qlens`
(`ys[self.Gzs%2==0,:] /= self.qlens`; `chi` is a fresh array allocated by
the numpy arithmetic, so the in-place division never aliases `self.eps`). -/
def modelYs (m : EpsmatModeler) (kind : ℕ) : List (List ℝ) :=
  if kind = 0 then m.eps
  else
    let vT := get_vcoul_array m m.qlens m.Gzs true
    let chi := List.zipWith (List.zipWith (fun e v => (e - 1) / v)) m.eps vT
    if kind = 1 then chi
    else
      List.zipWith
        (fun row Gz => if Gz % 2 = 0 then List.zipWith (fun c q => c / q) row m.qlens else row)
        chi m.Gzs

/-- The per-index `(x, y)` data handed to `splrep` inside the
`for ig, Gz in zip(arange(nG), Gzs)` loop of `model`: `x = qlens`,
`y = ys[ig]`, with a synthetic boundary point `(0, 0)` prepended exactly
when `Gz % 2 == 0 and model == 1` (`np.append(0, ...)`). -/
def modelXY (m : EpsmatModeler) (kind : ℕ) : List (List ℝ × List ℝ) :=
  List.zipWith
    (fun y Gz =>
      if Gz % 2 = 0 ∧ kind = 1 then (((0 : ℝ) :: m.qlens), ((0 : ℝ) :: y))
      else (m.qlens, y))
    (modelYs m kind) m.Gzs

/-- Source `EpsmatModeler.model(model, smooth, degree)`: sets `self.degree`, fits
one spline per `Gz` over the `modelXY` data with smoothing `s = 0` when
`Gz == 0` and `s = len(x)*smooth` otherwise, and stores the resulting
`(t, c, k)` triples in `self.tcks`.  The external `scipy` fitter is a
parameter; the plotting tail of the method touches no modeler field. -/
def model (splrep : List ℝ → List ℝ → ℕ → ℝ → List ℝ × List ℝ × ℕ)
    (m : EpsmatModeler) (kind : ℕ) (smooth : ℝ) (degree : ℕ) : EpsmatModeler :=
  let tcks := List.zipWith
    (fun xy Gz =>
      let s : ℝ := if Gz = 0 then 0 else (xy.1.length : ℝ) * smooth
      splrep xy.1 xy.2 degree s)
    (modelXY m kind) m.Gzs
  { m with degree := degree, tcks := tcks }

/-! Concrete inputs used by witnesses and counterexamples. -/

/-- The 3×3 identity, used as a concrete metric transform. -/
def idM : Fin 3 → Fin 3 → ℝ := fun i j => if i = j then 1 else 0

/-- Concrete modeler with identity metric transform and cutoff `1/2`. -/
def mW1 : EpsmatModeler where
  bdot := fun _ _ => 1
  Lz := 1
  M := idM
  Gz_max := 0
  Gzs := [0]
  avgcut_xy := 1 / 2
  qs := []
  qlens := []
  eps := []
  nq := 0
  degree := 0
  tcks := []

/-- Concrete modeler with identity metric transform and cutoff `0`. -/
def mC3 : EpsmatModeler where
  bdot := fun _ _ => 1
  Lz := 1
  M := idM
  Gz_max := 0
  Gzs := [0]
  avgcut_xy := 0
  qs := []
  qlens := []
  eps := []
  nq := 0
  degree := 0
  tcks := []

/-- A q-point of magnitude 1 (under the identity transform). -/
def pW1 : EpsQPoint where
  qpt := ![1, 0, 0]
  isort := [1]

/-- A source holding the single wanted G-vector `(0,0,0)` and one q-point of
magnitude 1. -/
def eW1 : EpsmatFile where
  gvec_k := [(0, 0, 0)]
  points := [pW1]
  bufs := [fun _ _ => 1]

/-- A source missing the wanted G-vector `(0,0,0)` (it stores only `(0,0,1)`). -/
def eW4 : EpsmatFile where
  gvec_k := [(0, 0, 1)]
  points := []
  bufs := []

/-- A q-point of magnitude 0. -/
def pC5 : EpsQPoint where
  qpt := ![0, 0, 0]
  isort := [1]

/-- A buffer whose diagonal entry has imaginary part `1e-10`. -/
def bC5 : Buf := fun _ _ => ⟨0, 1e-10⟩

/-- A source whose only q-point is retained but carries a diagonal value with
imaginary part `1e-10`, far above the `1e-15` tolerance. -/
def eC5 : EpsmatFile where
  gvec_k := [(0, 0, 0)]
  points := [pC5]
  bufs := [bC5]

/-- Concrete pending (uncommitted) dataset with two samples, out of order. -/
def mC2w : EpsmatModeler where
  bdot := fun _ _ => 1
  Lz := 1
  M := idM
  Gz_max := 0
  Gzs := [0]
  avgcut_xy := 5
  qs := [![1, 0, 0], ![0, 1, 0]]
  qlens := [3, 1]
  eps := [[5], [6]]
  nq := 0
  degree := 0
  tcks := []

/-- Concrete committed dataset (one `Gz`, one sample) for the C8 witness. -/
def mC8w : EpsmatModeler where
  bdot := fun _ _ => 1
  Lz := 1
  M := idM
  Gz_max := 0
  Gzs := [0]
  avgcut_xy := 5
  qs := [![1, 0, 0]]
  qlens := [1]
  eps := [[5]]
  nq := 0
  degree := 0
  tcks := []

/-- Concrete modeler for the C7 counterexample: one stored magnitude `2`. -/
def mC7 : EpsmatModeler where
  bdot := fun _ _ => 0
  Lz := 1
  M := idM
  Gz_max := 0
  Gzs := [0]
  avgcut_xy := 0
  qs := []
  qlens := [2]
  eps := []
  nq := 0
  degree := 0
  tcks := []

end

/-! ### Helper lemmas -/

lemma cosTerm_eq_neg_one_zpow (Gz : ℤ) :
    ((1 - 2 * (Gz % 2) : ℤ) : ℝ) = (-1 : ℝ) ^ Gz := by
  rcases Int.even_or_odd Gz with h | h
  · rw [Int.even_iff.mp h, h.neg_one_zpow]
    norm_num
  · rw [Int.odd_iff.mp h, h.neg_one_zpow]
    norm_num

lemma getD_map_of_lt {α β : Type*} (f : α → β) :
    ∀ (l : List α) (i : ℕ), i < l.length → ∀ (d : β) (d' : α),
      (l.map f).getD i d = f (l.getD i d')
  | [], i, h, _, _ => by simp at h
  | a :: t, 0, _, d, d' => rfl
  | a :: t, n + 1, h, d, d' => by
    simpa using getD_map_of_lt f t n (by simpa using h) d d'

lemma getD_zipWith_of_lt {α β γ : Type*} (f : α → β → γ) :
    ∀ (l₁ : List α) (l₂ : List β) (i : ℕ), i < l₁.length → i < l₂.length →
      ∀ (d : γ) (d₁ : α) (d₂ : β),
        (List.zipWith f l₁ l₂).getD i d = f (l₁.getD i d₁) (l₂.getD i d₂)
  | [], _, i, h₁, _, _, _, _ => by simp at h₁
  | _ :: _, [], i, _, h₂, _, _, _ => by simp at h₂
  | a :: t₁, b :: t₂, 0, _, _, d, d₁, d₂ => rfl
  | a :: t₁, b :: t₂, n + 1, h₁, h₂, d, d₁, d₂ => by
    simpa using getD_zipWith_of_lt f t₁ t₂ n (by simpa using h₁) (by simpa using h₂) d d₁ d₂

lemma sqdist_eq_zero_iff (v w : GVec) : sqdist v w = 0 ↔ v = w := by
  obtain ⟨a, b, c⟩ := v
  obtain ⟨x, y, z⟩ := w
  simp only [sqdist, Prod.mk.injEq]
  constructor
  · intro h
    have e1 : (a - x) ^ 2 = 0 := by
      nlinarith [sq_nonneg (a - x), sq_nonneg (b - y), sq_nonneg (c - z)]
    have e2 : (b - y) ^ 2 = 0 := by
      nlinarith [sq_nonneg (a - x), sq_nonneg (b - y), sq_nonneg (c - z)]
    have e3 : (c - z) ^ 2 = 0 := by
      nlinarith [sq_nonneg (a - x), sq_nonneg (b - y), sq_nonneg (c - z)]
    refine ⟨?_, ?_, ?_⟩ <;>
      [skip; skip; skip] <;>
      first
      | exact sub_eq_zero.mp (pow_eq_zero_iff two_ne_zero |>.mp e1)
      | exact sub_eq_zero.mp (pow_eq_zero_iff two_ne_zero |>.mp e2)
      | exact sub_eq_zero.mp (pow_eq_zero_iff two_ne_zero |>.mp e3)
  · rintro ⟨rfl, rfl, rfl⟩
    ring

lemma minSqDist_eq_some_zero {l : List GVec} {w : GVec}
    (h : minSqDist l w = some 0) : w ∈ l := by
  unfold minSqDist at h
  have h0 : (0 : ℤ) ∈ l.map (fun v => sqdist v w) :=
    List.min?_mem (fun a b : ℤ => min_choice a b) h
  obtain ⟨v, hv, hv0⟩ := List.mem_map.mp h0
  rwa [← (sqdist_eq_zero_iff v w).mp hv0]

/-! ### C6, C9: the Coulomb kernel formula and its positivity -/

/-- Claim C6: with truncation off the Coulomb kernel equals
`8π/(qlen² + Gz²·bdot_zz)`; with truncation on it is that value multiplied
by `(1 − exp(−qlen·zc)·(−1)^Gz)` with `zc = Lz/2`, where `Lz = alat·avec[2,2]`
is fixed from the geometry inputs at construction. -/
theorem C6_vcoul_formula (bdot : Fin 3 → Fin 3 → ℝ) (alat : ℝ) (avec : Fin 3 → Fin 3 → ℝ)
    (Gz_max : ℕ) (cut : ℝ) (qlen : ℝ) (Gz : ℤ) (hq : 0 < qlen) :
    get_vcoul_scalar (EpsmatModeler.init bdot alat avec Gz_max cut) qlen Gz false
        = 8 * Real.pi / (qlen ^ 2 + (Gz : ℝ) ^ 2 * bdot 2 2)
    ∧ get_vcoul_scalar (EpsmatModeler.init bdot alat avec Gz_max cut) qlen Gz true
        = 8 * Real.pi / (qlen ^ 2 + (Gz : ℝ) ^ 2 * bdot 2 2)
          * (1 - Real.exp (-qlen * (alat * avec 2 2 / 2)) * (-1 : ℝ) ^ Gz) := by
  constructor
  · simp [get_vcoul_scalar, EpsmatModeler.init]
  · rw [← cosTerm_eq_neg_one_zpow]
    simp [get_vcoul_scalar, EpsmatModeler.init]

/-- Witness for C6 at `bdot = 0`, `alat = 1`, `avec = 1`, `qlen = 1`, `Gz = 0`. -/
theorem C6_witness :
    (0 : ℝ) < 1
    ∧ (get_vcoul_scalar (EpsmatModeler.init (fun _ _ => 0) 1 (fun _ _ => 1) 0 0) 1 0 false
          = 8 * Real.pi / ((1 : ℝ) ^ 2 + ((0 : ℤ) : ℝ) ^ 2 * (0 : ℝ))
       ∧ get_vcoul_scalar (EpsmatModeler.init (fun _ _ => 0) 1 (fun _ _ => 1) 0 0) 1 0 true
          = 8 * Real.pi / ((1 : ℝ) ^ 2 + ((0 : ℤ) : ℝ) ^ 2 * (0 : ℝ))
            * (1 - Real.exp (-(1 : ℝ) * ((1 : ℝ) * (1 : ℝ) / 2)) * (-1 : ℝ) ^ (0 : ℤ))) :=
  ⟨by norm_num, C6_vcoul_formula (fun _ _ => 0) 1 (fun _ _ => 1) 0 0 1 0 (by norm_num)⟩

/-- Claim C9: for `qlen > 0`, `bdot_zz ≥ 0` and `Lz > 0` the Coulomb kernel
value is strictly positive, in both the truncated and untruncated form. -/
theorem C9_vcoul_pos (m : EpsmatModeler) (qlen : ℝ) (Gz : ℤ) (trunc : Bool)
    (hq : 0 < qlen) (hb : 0 ≤ m.bdot 2 2) (hL : 0 < m.Lz) :
    0 < get_vcoul_scalar m qlen Gz trunc := by
  have hpi := Real.pi_pos
  have hden : 0 < qlen ^ 2 + (Gz : ℝ) ^ 2 * m.bdot 2 2 :=
    add_pos_of_pos_of_nonneg (pow_pos hq 2) (mul_nonneg (sq_nonneg _) hb)
  have hbase : 0 < 8 * Real.pi / (qlen ^ 2 + (Gz : ℝ) ^ 2 * m.bdot 2 2) :=
    div_pos (by linarith) hden
  cases trunc with
  | false => simpa [get_vcoul_scalar] using hbase
  | true =>
    have hfac : 0 < 1 - Real.exp (-qlen * (m.Lz / 2)) * ((1 - 2 * (Gz % 2) : ℤ) : ℝ) := by
      rcases Int.emod_two_eq Gz with h | h
      · have hcast : ((1 - 2 * (Gz % 2) : ℤ) : ℝ) = 1 := by rw [h]; norm_num
        rw [hcast]
        have hexp : Real.exp (-qlen * (m.Lz / 2)) < 1 := by
          rw [Real.exp_lt_one_iff]
          nlinarith
        linarith
      · have hcast : ((1 - 2 * (Gz % 2) : ℤ) : ℝ) = -1 := by rw [h]; norm_num
        rw [hcast]
        have hexp := Real.exp_pos (-qlen * (m.Lz / 2))
        nlinarith
    simpa [get_vcoul_scalar] using mul_pos hbase hfac

/-- Witness for C9 at the concrete modeler `mC7`, `qlen = 1`, `Gz = 0`. -/
theorem C9_witness :
    ((0 : ℝ) < 1 ∧ 0 ≤ mC7.bdot 2 2 ∧ 0 < mC7.Lz)
    ∧ 0 < get_vcoul_scalar mC7 1 0 true :=
  ⟨⟨by norm_num, by norm_num [mC7], by norm_num [mC7]⟩,
   C9_vcoul_pos mC7 1 0 true (by norm_num) (by norm_num [mC7]) (by norm_num [mC7])⟩

/-! ### C10: `model` does not modify the committed dataset -/

/-- Claim C10: for every model kind in {0, 1, 2}, `model` leaves `qs`,
`qlens`, `eps` and the configuration fields `Gzs`, `avgcut_xy`, `bdot`,
`Lz`, `M` unchanged (it only sets `degree` and `tcks`; the kind-2 in-place
division acts on the freshly computed array, never on the stored `eps`). -/
theorem C10_model_frame (splrep : List ℝ → List ℝ → ℕ → ℝ → List ℝ × List ℝ × ℕ)
    (m : EpsmatModeler) (kind : ℕ) (smooth : ℝ) (degree : ℕ)
    (hkind : kind = 0 ∨ kind = 1 ∨ kind = 2) :
    (model splrep m kind smooth degree).qs = m.qs
    ∧ (model splrep m kind smooth degree).qlens = m.qlens
    ∧ (model splrep m kind smooth degree).eps = m.eps
    ∧ (model splrep m kind smooth degree).Gzs = m.Gzs
    ∧ (model splrep m kind smooth degree).avgcut_xy = m.avgcut_xy
    ∧ (model splrep m kind smooth degree).bdot = m.bdot
    ∧ (model splrep m kind smooth degree).Lz = m.Lz
    ∧ (model splrep m kind smooth degree).M = m.M :=
  ⟨rfl, rfl, rfl, rfl, rfl, rfl, rfl, rfl⟩

/-- Witness for C10 at kind 0 on the concrete modeler `mC7`. -/
theorem C10_witness :
    ((0 : ℕ) = 0 ∨ (0 : ℕ) = 1 ∨ (0 : ℕ) = 2)
    ∧ ((model (fun _ _ _ _ => ([], [], 0)) mC7 0 0 3).qs = mC7.qs
       ∧ (model (fun _ _ _ _ => ([], [], 0)) mC7 0 0 3).qlens = mC7.qlens
       ∧ (model (fun _ _ _ _ => ([], [], 0)) mC7 0 0 3).eps = mC7.eps
       ∧ (model (fun _ _ _ _ => ([], [], 0)) mC7 0 0 3).Gzs = mC7.Gzs
       ∧ (model (fun _ _ _ _ => ([], [], 0)) mC7 0 0 3).avgcut_xy = mC7.avgcut_xy
       ∧ (model (fun _ _ _ _ => ([], [], 0)) mC7 0 0 3).bdot = mC7.bdot
       ∧ (model (fun _ _ _ _ => ([], [], 0)) mC7 0 0 3).Lz = mC7.Lz
       ∧ (model (fun _ _ _ _ => ([], [], 0)) mC7 0 0 3).M = mC7.M) :=
  ⟨Or.inl rfl, C10_model_frame (fun _ _ _ _ => ([], [], 0)) mC7 0 0 3 (Or.inl rfl)⟩

/-! ### C7: broadcast semantics of the array path of `get_vcoul` -/

/-- Claim C7 counterexample: with stored `qlens = [2]`, calling the array
path with the supplied magnitude vector `[3]` does not return the kernel
evaluated at the supplied magnitude `3`: the supplied vector is discarded. -/
theorem C7_counterexample :
    get_vcoul_array mC7 [3] [0] false ≠ [[get_vcoul_scalar mC7 3 0 false]] := by
  have hql : mC7.qlens = [2] := rfl
  have hb22 : mC7.bdot 2 2 = 0 := rfl
  have harr : get_vcoul_array mC7 [3] [0] false = [[get_vcoul_scalar mC7 2 0 false]] := by
    simp [get_vcoul_array, hql]
  have ha : get_vcoul_scalar mC7 2 0 false = 8 * Real.pi / 4 := by
    simp [get_vcoul_scalar, hb22]
    norm_num
  have hbv : get_vcoul_scalar mC7 3 0 false = 8 * Real.pi / 9 := by
    simp [get_vcoul_scalar, hb22]
    norm_num
  rw [harr, ha, hbv]
  intro hEq
  have h2 : 8 * Real.pi / 4 = 8 * Real.pi / 9 := by simpa using hEq
  have hpi := Real.pi_pos
  linarith

/-- Claim C7 as amended: the `(i, j)` entry of the array-path result is the
kernel at the supplied `Gz[i]` and the modeler's *stored* magnitude
`qlens[j]`; the supplied `qlen` vector is ignored. -/
theorem C7_array_uses_stored_qlens (m : EpsmatModeler) (qlen : List ℝ) (Gz : List ℤ)
    (trunc : Bool) (i j : ℕ) (hi : i < Gz.length) (hj : j < m.qlens.length) :
    ((get_vcoul_array m qlen Gz trunc).getD i []).getD j 0
      = get_vcoul_scalar m (m.qlens.getD j 0) (Gz.getD i 0) trunc := by
  unfold get_vcoul_array
  rw [getD_map_of_lt _ Gz i hi [] 0]
  rw [getD_map_of_lt _ m.qlens j hj 0 0]

/-- Witness for the amended C7 at `mC7`, supplied vector `[3]`, `Gz = [0]`. -/
theorem C7_witness :
    ((0 : ℕ) < ([0] : List ℤ).length ∧ (0 : ℕ) < mC7.qlens.length)
    ∧ ((get_vcoul_array mC7 [3] [0] false).getD 0 []).getD 0 0
        = get_vcoul_scalar mC7 (mC7.qlens.getD 0 0) (([0] : List ℤ).getD 0 0) false :=
  ⟨⟨by norm_num, by norm_num [mC7]⟩,
   C7_array_uses_stored_qlens mC7 [3] [0] false 0 0 (by norm_num) (by norm_num [mC7])⟩

/-! ### Unfolding lemmas for the ingestion loop -/

lemma add_epsmat_loop_nil (igs_glob : List ℕ) (m : EpsmatModeler) (bufs : List Buf) :
    add_epsmat_loop igs_glob m [] bufs = (m, bufs, none) := by
  rw [add_epsmat_loop]

lemma add_epsmat_loop_cons (igs_glob : List ℕ) (m : EpsmatModeler) (p : EpsQPoint)
    (ps : List EpsQPoint) (bufs : List Buf) :
    add_epsmat_loop igs_glob m (p :: ps) bufs =
      if qlenOf m.M p.qpt > m.avgcut_xy then
        add_epsmat_loop igs_glob m ps bufs.tail
      else
        let m1 := { m with qs := m.qs ++ [p.qpt], qlens := m.qlens ++ [qlenOf m.M p.qpt] }
        let epsv := extractEps igs_glob p.isort (bufs.headD (fun _ _ => 0))
        if ∀ e ∈ epsv, |e.im| < 1e-15 then
          add_epsmat_loop igs_glob { m1 with eps := m1.eps ++ [epsv.map Complex.re] }
            ps bufs.tail
        else (m1, bufs.tail, some IngestError.numericalIntegrity) := by
  rw [add_epsmat_loop]

lemma add_epsmat_loop_skip (igs_glob : List ℕ) (m : EpsmatModeler) (p : EpsQPoint)
    (ps : List EpsQPoint) (bufs : List Buf) (h : qlenOf m.M p.qpt > m.avgcut_xy) :
    add_epsmat_loop igs_glob m (p :: ps) bufs = add_epsmat_loop igs_glob m ps bufs.tail := by
  rw [add_epsmat_loop_cons, if_pos h]

lemma add_epsmat_loop_keep (igs_glob : List ℕ) (m : EpsmatModeler) (p : EpsQPoint)
    (ps : List EpsQPoint) (bufs : List Buf)
    (h1 : ¬ qlenOf m.M p.qpt > m.avgcut_xy)
    (h2 : ∀ e ∈ extractEps igs_glob p.isort (bufs.headD (fun _ _ => 0)), |e.im| < 1e-15) :
    add_epsmat_loop igs_glob m (p :: ps) bufs =
      add_epsmat_loop igs_glob
        { m with qs := m.qs ++ [p.qpt], qlens := m.qlens ++ [qlenOf m.M p.qpt],
                 eps := m.eps ++ [(extractEps igs_glob p.isort (bufs.headD (fun _ _ => 0))).map
                   Complex.re] }
        ps bufs.tail := by
  rw [add_epsmat_loop_cons, if_neg h1]
  exact if_pos h2

lemma add_epsmat_loop_fail (igs_glob : List ℕ) (m : EpsmatModeler) (p : EpsQPoint)
    (ps : List EpsQPoint) (bufs : List Buf)
    (h1 : ¬ qlenOf m.M p.qpt > m.avgcut_xy)
    (h2 : ¬ ∀ e ∈ extractEps igs_glob p.isort (bufs.headD (fun _ _ => 0)), |e.im| < 1e-15) :
    add_epsmat_loop igs_glob m (p :: ps) bufs =
      ({ m with qs := m.qs ++ [p.qpt], qlens := m.qlens ++ [qlenOf m.M p.qpt] },
       bufs.tail, some IngestError.numericalIntegrity) := by
  rw [add_epsmat_loop_cons, if_neg h1]
  exact if_neg h2

/-! ### The cutoff invariant of the ingestion loop -/

lemma loop_qlens_bound (igs_glob : List ℕ) (ps : List EpsQPoint) :
    ∀ (m : EpsmatModeler) (bufs : List Buf) (x : ℝ),
      x ∈ (add_epsmat_loop igs_glob m ps bufs).1.qlens →
      x ∈ m.qlens ∨ x ≤ m.avgcut_xy := by
  induction ps with
  | nil =>
    intro m bufs x hx
    rw [add_epsmat_loop_nil] at hx
    exact Or.inl hx
  | cons p pt ih =>
    intro m bufs x hx
    by_cases h1 : qlenOf m.M p.qpt > m.avgcut_xy
    · rw [add_epsmat_loop_skip igs_glob m p pt bufs h1] at hx
      exact ih m bufs.tail x hx
    · by_cases h2 : ∀ e ∈ extractEps igs_glob p.isort (bufs.headD (fun _ _ => 0)), |e.im| < 1e-15
      · rw [add_epsmat_loop_keep igs_glob m p pt bufs h1 h2] at hx
        rcases ih _ bufs.tail x hx with h | h
        · have h' : x ∈ m.qlens ++ [qlenOf m.M p.qpt] := h
          rcases List.mem_append.mp h' with h'' | h''
          · exact Or.inl h''
          · have hxq : x = qlenOf m.M p.qpt := by simpa using h''
            exact Or.inr (hxq ▸ not_lt.mp h1)
        · exact Or.inr h
      · rw [add_epsmat_loop_fail igs_glob m p pt bufs h1 h2] at hx
        have h' : x ∈ m.qlens ++ [qlenOf m.M p.qpt] := hx
        rcases List.mem_append.mp h' with h'' | h''
        · exact Or.inl h''
        · have hxq : x = qlenOf m.M p.qpt := by simpa using h''
          exact Or.inr (hxq ▸ not_lt.mp h1)

lemma add_epsmat_qlens_bound (m : EpsmatModeler) (e : EpsmatFile) (x : ℝ)
    (hx : x ∈ (add_epsmat m e).1.qlens) : x ∈ m.qlens ∨ x ≤ m.avgcut_xy := by
  unfold add_epsmat at hx
  by_cases hall : ((gvecs_want m).all (fun w => minSqDist e.gvec_k w == some 0)) = true
  · rw [if_pos hall] at hx
    exact loop_qlens_bound _ _ m e.bufs x hx
  · rw [if_neg hall] at hx
    exact Or.inl hx

/-! ### Evaluation lemmas for concrete q-points -/

lemma qlen_idM_one : qlenOf idM ![1, 0, 0] = 1 := by
  have hsum : ∑ i, (∑ j, idM i j * (![1, 0, 0] : Fin 3 → ℝ) j) ^ 2 = 1 := by
    simp [idM, Fin.sum_univ_three]
  rw [qlenOf, hsum, Real.sqrt_one]

lemma qlen_zero_vec (M : Fin 3 → Fin 3 → ℝ) : qlenOf M ![0, 0, 0] = 0 := by
  have hsum : ∑ i, (∑ j, M i j * (![0, 0, 0] : Fin 3 → ℝ) j) ^ 2 = 0 := by
    simp [Fin.sum_univ_three]
  rw [qlenOf, hsum, Real.sqrt_zero]

/-! ### C1: the magnitude cutoff filter -/

/-- Claim C1: a q-point whose computed magnitude exceeds `avgcut_xy`
contributes nothing to the pending arrays `qs`/`qlens`/`eps`, yet still
consumes one read from the source's per-point reader (iteration state
advances); and with a positive cutoff, every magnitude present after
ingestion was either already present or is bounded by `avgcut_xy`. -/
theorem C1_cutoff_filter (m : EpsmatModeler) (igs_glob : List ℕ) (p : EpsQPoint)
    (ps : List EpsQPoint) (bufs : List Buf) (e : EpsmatFile)
    (hcut : 0 < m.avgcut_xy) (hskip : qlenOf m.M p.qpt > m.avgcut_xy) :
    add_epsmat_loop igs_glob m (p :: ps) bufs = add_epsmat_loop igs_glob m ps bufs.tail
    ∧ ∀ x ∈ (add_epsmat m e).1.qlens, x ∈ m.qlens ∨ x ≤ m.avgcut_xy :=
  ⟨add_epsmat_loop_skip igs_glob m p ps bufs hskip,
   fun x hx => add_epsmat_qlens_bound m e x hx⟩

lemma mW1_cut : 0 < mW1.avgcut_xy := by norm_num [mW1]

lemma mW1_skip : qlenOf mW1.M pW1.qpt > mW1.avgcut_xy := by
  have h1 : qlenOf mW1.M pW1.qpt = 1 := qlen_idM_one
  rw [h1]
  norm_num [mW1]

/-- Witness for C1: under the identity transform, the point `(1,0,0)` has
magnitude `1 > 1/2` and is skipped while one buffer is consumed. -/
theorem C1_witness :
    (0 < mW1.avgcut_xy ∧ qlenOf mW1.M pW1.qpt > mW1.avgcut_xy)
    ∧ (add_epsmat_loop [0] mW1 (pW1 :: []) eW1.bufs
         = add_epsmat_loop [0] mW1 [] eW1.bufs.tail
       ∧ ∀ x ∈ (add_epsmat mW1 eW1).1.qlens, x ∈ mW1.qlens ∨ x ≤ mW1.avgcut_xy) :=
  ⟨⟨mW1_cut, mW1_skip⟩, C1_cutoff_filter mW1 [0] pW1 [] eW1.bufs eW1 mW1_cut mW1_skip⟩

/-! ### C3: a zero cutoff filters out every point of positive magnitude -/

lemma mC3_skip : qlenOf mC3.M pW1.qpt > mC3.avgcut_xy := by
  have h1 : qlenOf mC3.M pW1.qpt = 1 := qlen_idM_one
  rw [h1]
  norm_num [mC3]

/-- Claim C3 is contradicted by the code: with `avgcut_xy = 0` (documented by
the tool's own option help as "keep all q-points") the filter `qlen >
avgcut_xy` discards every q-point of positive magnitude.  Ingesting a source
whose only q-point has magnitude 1 completes without error yet retains
nothing (`qlens` stays empty). -/
theorem C3_zero_cutoff_discards :
    (add_epsmat mC3 eW1).1.qlens = [] ∧ (add_epsmat mC3 eW1).2.2 = none := by
  have hstep : add_epsmat mC3 eW1 = (mC3, [], none) := by
    calc add_epsmat mC3 eW1 = add_epsmat_loop [0] mC3 [pW1] eW1.bufs := by
          unfold add_epsmat
          rw [if_pos (by rfl)]
          rfl
      _ = add_epsmat_loop [0] mC3 [] eW1.bufs.tail :=
          add_epsmat_loop_skip [0] mC3 pW1 [] eW1.bufs mC3_skip
      _ = (mC3, [], none) := add_epsmat_loop_nil [0] mC3 []
  rw [hstep]
  exact ⟨rfl, rfl⟩

/-! ### C4: a missing wanted G-vector aborts before any ingestion -/

/-- Claim C4: if any requested lattice vector `(0,0,Gz)` is absent from the
source's stored `gvec` list, `add_epsmat` fails with the precondition
violation before any q-point is ingested: the modeler state is returned
unchanged and no buffer is consumed.  Only an exact (zero-distance) match
counts — near misses are still absences. -/
theorem C4_missing_gvec (m : EpsmatModeler) (e : EpsmatFile)
    (h : ∃ w ∈ gvecs_want m, w ∉ e.gvec_k) :
    add_epsmat m e = (m, e.bufs, some IngestError.precondViolation) := by
  obtain ⟨w, hw, hnot⟩ := h
  have hfalse : ¬ (((gvecs_want m).all (fun w => minSqDist e.gvec_k w == some 0)) = true) := by
    intro hall
    have hbeq := List.all_eq_true.mp hall w hw
    have h0 : minSqDist e.gvec_k w = some 0 := by simpa using hbeq
    exact hnot (minSqDist_eq_some_zero h0)
  unfold add_epsmat
  rw [if_neg hfalse]

lemma hW4_missing : ∃ w ∈ gvecs_want mC3, w ∉ eW4.gvec_k :=
  ⟨(0, 0, 0), by decide, by decide⟩

/-- Witness for C4: the source `eW4` stores only `(0,0,1)`, so the wanted
`(0,0,0)` is missing and ingestion aborts with the modeler untouched. -/
theorem C4_witness :
    (∃ w ∈ gvecs_want mC3, w ∉ eW4.gvec_k)
    ∧ add_epsmat mC3 eW4 = (mC3, eW4.bufs, some IngestError.precondViolation) :=
  ⟨hW4_missing, C4_missing_gvec mC3 eW4 hW4_missing⟩

/-! ### C5: the imaginary-part integrity check -/

/-- Claim C5 as amended: when a retained point's extracted diagonal values
include one whose imaginary part is not below `1e-15` in absolute value,
ingestion of that point aborts with `numericalIntegrity` before anything is
appended to `eps` — but `q` and `qlen` were already appended to `qs` and
`qlens` before the buffer was read, so those two pending arrays are
modified by the failed point (the claim's assertion that all three arrays
are left unchanged does not hold). -/
theorem C5_imag_abort (igs_glob : List ℕ) (m : EpsmatModeler) (p : EpsQPoint)
    (ps : List EpsQPoint) (bufs : List Buf)
    (hkeep : ¬ qlenOf m.M p.qpt > m.avgcut_xy)
    (hbad : ¬ ∀ e ∈ extractEps igs_glob p.isort (bufs.headD (fun _ _ => 0)), |e.im| < 1e-15) :
    add_epsmat_loop igs_glob m (p :: ps) bufs
      = ({ m with qs := m.qs ++ [p.qpt], qlens := m.qlens ++ [qlenOf m.M p.qpt] },
         bufs.tail, some IngestError.numericalIntegrity) :=
  add_epsmat_loop_fail igs_glob m p ps bufs hkeep hbad

lemma mC3_keep_pC5 : ¬ qlenOf mC3.M pC5.qpt > mC3.avgcut_xy := by
  have h0 : qlenOf mC3.M pC5.qpt = 0 := qlen_zero_vec mC3.M
  rw [h0]
  norm_num [mC3]

lemma mC3_bad_pC5 :
    ¬ ∀ e ∈ extractEps [0] pC5.isort (([bC5] : List Buf).headD (fun _ _ => 0)),
      |e.im| < 1e-15 := by
  intro hall
  have hmem : (⟨0, 1e-10⟩ : ℂ) ∈ extractEps [0] pC5.isort
      (([bC5] : List Buf).headD (fun _ _ => 0)) :=
    List.mem_singleton.mpr rfl
  have hlt := hall ⟨0, 1e-10⟩ hmem
  have him : (⟨0, 1e-10⟩ : ℂ).im = 1e-10 := rfl
  rw [him, abs_of_nonneg (by norm_num)] at hlt
  norm_num at hlt

/-- Claim C5 counterexample: ingesting the source `eC5`, whose only q-point
passes the filter but carries a diagonal value with imaginary part `1e-10`,
raises the integrity error — yet the pending `qlens` array is NOT left
unchanged: the failed point's magnitude was already appended. -/
theorem C5_counterexample :
    (add_epsmat mC3 eC5).2.2 = some IngestError.numericalIntegrity
    ∧ (add_epsmat mC3 eC5).1.qlens ≠ mC3.qlens := by
  have hstep : add_epsmat mC3 eC5
      = ({ mC3 with qs := mC3.qs ++ [pC5.qpt], qlens := mC3.qlens ++ [qlenOf mC3.M pC5.qpt] }, eC5.bufs.tail, some IngestError.numericalIntegrity) := by
    calc add_epsmat mC3 eC5 = add_epsmat_loop [0] mC3 [pC5] eC5.bufs := by
          unfold add_epsmat
          rw [if_pos (by rfl)]
          rfl
      _ = _ := add_epsmat_loop_fail [0] mC3 pC5 [] eC5.bufs mC3_keep_pC5 mC3_bad_pC5
  rw [hstep]
  refine ⟨rfl, ?_⟩
  intro hEq
  have : mC3.qlens ++ [qlenOf mC3.M pC5.qpt] = mC3.qlens := hEq
  simpa using congrArg List.length this

/-- Witness for the amended C5 at the concrete failing point. -/
theorem C5_witness :
    (¬ qlenOf mC3.M pC5.qpt > mC3.avgcut_xy
     ∧ ¬ ∀ e ∈ extractEps [0] pC5.isort (([bC5] : List Buf).headD (fun _ _ => 0)),
         |e.im| < 1e-15)
    ∧ add_epsmat_loop [0] mC3 (pC5 :: []) [bC5]
        = ({ mC3 with qs := mC3.qs ++ [pC5.qpt], qlens := mC3.qlens ++ [qlenOf mC3.M pC5.qpt] }, ([bC5] : List Buf).tail, some IngestError.numericalIntegrity) :=
  ⟨⟨mC3_keep_pC5, mC3_bad_pC5⟩,
   C5_imag_abort [0] mC3 pC5 [] [bC5] mC3_keep_pC5 mC3_bad_pC5⟩

/-! ### C2: `commit_data` sorts all three arrays by one permutation -/

lemma argsortQlens_perm (qlens : List ℝ) :
    (argsortQlens qlens).Perm (List.range qlens.length) :=
  List.mergeSort_perm (List.range qlens.length) _

lemma argsortQlens_sorted (qlens : List ℝ) :
    List.Sorted (· ≤ ·) ((argsortQlens qlens).map (fun i => qlens.getD i 0)) := by
  have hp : (argsortQlens qlens).Pairwise
      (fun i j => (decide (qlens.getD i 0 ≤ qlens.getD j 0)) = true) := by
    unfold argsortQlens
    exact List.sorted_mergeSort
      (fun a b c hab hbc => by
        simp only [decide_eq_true_eq] at hab hbc ⊢
        exact le_trans hab hbc)
      (fun a b => by
        simp only [Bool.or_eq_true, decide_eq_true_eq]
        exact le_total _ _)
      (List.range qlens.length)
  refine List.Pairwise.map _ ?_ hp
  intro a b hab
  simpa using hab

lemma range_map_getD_zip {α β γ : Type*} (da : α) (db : β) (dc : γ) :
    ∀ (bs : List β) (xs : List α) (cs : List γ),
      xs.length = bs.length → cs.length = bs.length →
      (List.range bs.length).map (fun i => (xs.getD i da, bs.getD i db, cs.getD i dc))
        = xs.zip (bs.zip cs) := by
  intro bs
  induction bs with
  | nil =>
    intro xs cs h1 h2
    rw [List.length_eq_zero.mp h1]
    simp
  | cons b bt ih =>
    intro xs cs h1 h2
    match xs, cs with
    | [], _ => simp at h1
    | _ :: _, [] => simp at h2
    | x :: xt, c :: ct =>
      have htail := ih xt ct (by simpa using h1) (by simpa using h2)
      rw [List.length_cons, List.range_succ_eq_map, List.map_cons, List.map_map]
      rw [List.zip_cons_cons, List.zip_cons_cons, ← htail]
      exact congrArg₂ List.cons rfl (List.map_congr_left (fun i _ => rfl))

/-- Claim C2: after `commit_data`, `qlens` is non-decreasing, and `qs`,
`qlens` and `eps` have all been reordered by the same magnitude-sorting
permutation `order` of the sample indices (for `eps`, row by row in the
transposed (nG × nq) orientation), so the multiset of
(q, qlen, eps-vector) triples of the pending data is preserved. -/
theorem C2_commit_sorted (m : EpsmatModeler)
    (h1 : m.qs.length = m.qlens.length) (h2 : m.eps.length = m.qlens.length) :
    List.Sorted (· ≤ ·) (commit_data m).qlens
    ∧ ∃ order : List ℕ, order.Perm (List.range m.qlens.length)
        ∧ (commit_data m).qs = order.map (fun i => m.qs.getD i (fun _ => 0))
        ∧ (commit_data m).qlens = order.map (fun i => m.qlens.getD i 0)
        ∧ (commit_data m).eps = (List.range m.Gzs.length).map
            (fun ig => order.map (fun i => (m.eps.getD i []).getD ig 0))
        ∧ List.Perm
            (order.map (fun i => (m.qs.getD i (fun _ => 0), m.qlens.getD i 0, m.eps.getD i [])))
            (m.qs.zip (m.qlens.zip m.eps)) := by
  refine ⟨argsortQlens_sorted m.qlens, argsortQlens m.qlens, argsortQlens_perm m.qlens,
    rfl, rfl, rfl, ?_⟩
  have hperm := (argsortQlens_perm m.qlens).map
    (fun i => (m.qs.getD i (fun _ => 0), m.qlens.getD i 0, m.eps.getD i []))
  rwa [range_map_getD_zip (fun _ => (0 : ℝ)) (0 : ℝ) ([] : List ℝ) m.qlens m.qs m.eps h1 h2]
    at hperm

/-- Witness for C2 on a concrete two-sample pending dataset. -/
theorem C2_witness :
    (mC2w.qs.length = mC2w.qlens.length ∧ mC2w.eps.length = mC2w.qlens.length)
    ∧ (List.Sorted (· ≤ ·) (commit_data mC2w).qlens
       ∧ ∃ order : List ℕ, order.Perm (List.range mC2w.qlens.length)
           ∧ (commit_data mC2w).qs = order.map (fun i => mC2w.qs.getD i (fun _ => 0))
           ∧ (commit_data mC2w).qlens = order.map (fun i => mC2w.qlens.getD i 0)
           ∧ (commit_data mC2w).eps = (List.range mC2w.Gzs.length).map
               (fun ig => order.map (fun i => (mC2w.eps.getD i []).getD ig 0))
           ∧ List.Perm
               (order.map (fun i =>
                 (mC2w.qs.getD i (fun _ => 0), mC2w.qlens.getD i 0, mC2w.eps.getD i [])))
               (mC2w.qs.zip (mC2w.qlens.zip mC2w.eps))) :=
  ⟨⟨rfl, rfl⟩, C2_commit_sorted mC2w rfl rfl⟩

/-! ### C8: the data handed to the spline fitter for model kind 1 -/

lemma modelYs_one (m : EpsmatModeler) :
    modelYs m 1 = List.zipWith (List.zipWith (fun e v => (e - 1) / v)) m.eps
      (get_vcoul_array m m.qlens m.Gzs true) := rfl

lemma modelYs_one_getD (m : EpsmatModeler) (ig : ℕ)
    (hig : ig < m.Gzs.length) (hlen : m.eps.length = m.Gzs.length) :
    (modelYs m 1).getD ig []
      = List.zipWith (fun e q => (e - 1) / get_vcoul_scalar m q (m.Gzs.getD ig 0) true)
          (m.eps.getD ig []) m.qlens := by
  rw [modelYs_one]
  rw [getD_zipWith_of_lt _ m.eps (get_vcoul_array m m.qlens m.Gzs true) ig
    (by rw [hlen]; exact hig) (by simpa [get_vcoul_array] using hig) [] [] []]
  unfold get_vcoul_array
  rw [getD_map_of_lt _ m.Gzs ig hig [] 0]
  rw [List.zipWith_map_right]

lemma modelYs_one_length (m : EpsmatModeler) (hlen : m.eps.length = m.Gzs.length) :
    (modelYs m 1).length = m.Gzs.length := by
  rw [modelYs_one]
  simp [get_vcoul_array, hlen]

/-- Claim C8: for model kind 1, the per-index values handed to the fitter
are `(eps − 1) / kernel(qlen, Gz)`, and for even `Gz` (including `Gz = 0`)
a synthetic boundary point `(qlen = 0, value = 0)` is prepended to the data
before fitting, while for odd `Gz` nothing is prepended. -/
theorem C8_model1_fit_data (m : EpsmatModeler) (ig : ℕ)
    (hig : ig < m.Gzs.length) (hlen : m.eps.length = m.Gzs.length) :
    (modelXY m 1).getD ig ([], [])
      = if Even (m.Gzs.getD ig 0) then
          ((0 : ℝ) :: m.qlens,
           (0 : ℝ) :: List.zipWith
             (fun e q => (e - 1) / get_vcoul_scalar m q (m.Gzs.getD ig 0) true)
             (m.eps.getD ig []) m.qlens)
        else
          (m.qlens,
           List.zipWith
             (fun e q => (e - 1) / get_vcoul_scalar m q (m.Gzs.getD ig 0) true)
             (m.eps.getD ig []) m.qlens) := by
  unfold modelXY
  rw [getD_zipWith_of_lt _ (modelYs m 1) m.Gzs ig
    (by rw [modelYs_one_length m hlen]; exact hig) hig ([], []) [] 0]
  rw [modelYs_one_getD m ig hig hlen]
  by_cases h : Even (m.Gzs.getD ig 0)
  · rw [if_pos ⟨Int.even_iff.mp h, rfl⟩, if_pos h]
  · rw [if_neg (fun hc => h (Int.even_iff.mpr hc.1)), if_neg h]

/-- Witness for C8 on a concrete committed dataset with `Gzs = [0]`. -/
theorem C8_witness :
    ((0 : ℕ) < mC8w.Gzs.length ∧ mC8w.eps.length = mC8w.Gzs.length)
    ∧ (modelXY mC8w 1).getD 0 ([], [])
        = if Even (mC8w.Gzs.getD 0 0) then
            ((0 : ℝ) :: mC8w.qlens,
             (0 : ℝ) :: List.zipWith
               (fun e q => (e - 1) / get_vcoul_scalar mC8w q (mC8w.Gzs.getD 0 0) true)
               (mC8w.eps.getD 0 []) mC8w.qlens)
          else
            (mC8w.qlens,
             List.zipWith
               (fun e q => (e - 1) / get_vcoul_scalar mC8w q (mC8w.Gzs.getD 0 0) true)
               (mC8w.eps.getD 0 []) mC8w.qlens) :=
  ⟨⟨by norm_num [mC8w], rfl⟩, C8_model1_fit_data mC8w 0 (by norm_num [mC8w]) rfl⟩
